import Mathlib

/-!
Verification development for the fancy-login repository (Go).

The definitions below are a shallow embedding of the resolution engine,
pattern matcher, namespace resolver, config store and wizard of the
repository.  Pure Go functions become Lean functions on `List Char` /
`String`; Go maps become association lists with first-key lookup; file
system and subprocess effects are abstracted into explicit parameters
(the loaded mapping files, the operator's answers) and explicit result
values (which context was chosen, whether k9s was launched).
Machine-specific behaviour (terminal escapes, logging) is dropped: it
never feeds back into the data flow being verified.
-/

/-! ## Association-list primitives (Go `map[string]T` access) -/

/-- First-match lookup in an association list; Go map indexing
(`m[k]`, `v, ok := m[k]`) on a map whose keys are unique. -/
def lookupKey {β : Type} : List (String × β) → String → Option β
  | [], _ => none
  | (k', v) :: rest, k => if k' = k then some v else lookupKey rest k

/-- Go map assignment `m[k] = v`: replace the binding if the key is
present, append it otherwise. -/
def mapInsert {β : Type} : List (String × β) → String → β → List (String × β)
  | [], k, v => [(k, v)]
  | (k', v') :: rest, k, v =>
    if k' = k then (k, v) :: rest else (k', v') :: mapInsert rest k v

/-! ## PatternMatcher (`internal/config`, `MatchesPattern`)

The source converts a shell-style wildcard to a Go regular expression
by textual replacement (`*` to `.*`, `?` to `.`), wraps it in the
anchors `^`/`$` and calls `regexp.MatchString`; a regex-compile error
is ignored and counts as a non-match.  The embedding below implements
that fragment of the RE2 engine which the translation can emit when
the pattern uses ordinary literal characters: sequences of atoms (a
literal character or `.`), each optionally followed by `*`.  With both
anchors present, `regexp.MatchString` is exactly a full match of the
body against the candidate, which `atomsMatch` computes; `.` in RE2
matches any character except a newline.  Regex strings outside this
fragment are rejected by the parser and yield `false`, as an invalid
regex does in the source. -/

/-- One atom of the compiled regular expression body. -/
inductive RAtom where
  | lit (c : Char)
  | dot
  | starDot
  | starLit (c : Char)
deriving Repr, DecidableEq

/-- Whether a single (non-starred) occurrence of an atom matches one
character; `.` matches any character except a newline, as in RE2
without the `s` flag. -/
def atomMatchesChar : RAtom → Char → Bool
  | RAtom.lit c, d => c == d
  | RAtom.dot, d => d != '\n'
  | RAtom.starLit c, d => c == d
  | RAtom.starDot, d => d != '\n'

/-- Kleene-star loop: consume zero or more characters matching `a`,
then hand the remaining suffix to the continuation `cont`. -/
def starLoop (a : RAtom) (cont : List Char → Bool) : List Char → Bool
  | [] => cont []
  | d :: s' => cont (d :: s') || (atomMatchesChar a d && starLoop a cont s')

/-- Full-match semantics for a sequence of regex atoms. -/
def atomsMatch : List RAtom → List Char → Bool
  | [], s => s.isEmpty
  | RAtom.lit c :: r, s =>
    match s with
    | [] => false
    | d :: s' => c == d && atomsMatch r s'
  | RAtom.dot :: r, s =>
    match s with
    | [] => false
    | d :: s' => d != '\n' && atomsMatch r s'
  | RAtom.starDot :: r, s => starLoop RAtom.starDot (atomsMatch r) s
  | RAtom.starLit c :: r, s => starLoop (RAtom.starLit c) (atomsMatch r) s

/-- Characters the embedded regex engine accepts as self-matching
literals (they carry no RE2 metacharacter meaning). -/
def isRegexLiteralChar (c : Char) : Bool :=
  c.isAlpha || c.isDigit || c == '_' || c == '-'

/-- Parse one character of the regex body into an atom, if supported. -/
def parseAtomChar (c : Char) : Option RAtom :=
  if c = '.' then some RAtom.dot
  else if isRegexLiteralChar c then some (RAtom.lit c) else none

/-- Apply a postfix `*` to an atom. -/
def starify : RAtom → RAtom
  | RAtom.lit c => RAtom.starLit c
  | RAtom.dot => RAtom.starDot
  | a => a

/-- Parse the anchored regex body (the text between `^` and `$`) into
a sequence of atoms.  A leading `*` has no atom to repeat and is a
compile error (`none`), as are unsupported metacharacters. -/
def parseRegexBody : List Char → Option (List RAtom)
  | [] => some []
  | [c] => if c = '*' then none else (parseAtomChar c).map (fun a => [a])
  | c :: c' :: rest =>
    if c = '*' then none
    else
      match parseAtomChar c with
      | none => none
      | some a =>
        if c' = '*' then (parseRegexBody rest).map (fun l => starify a :: l)
        else (parseRegexBody (c' :: rest)).map (fun l => a :: l)

/-- The source's `strings.ReplaceAll(pattern, "*", ".*")`: the searched
string is a single character, so the replacement is characterwise and
never rescans its own output. -/
def replaceStar : List Char → List Char
  | [] => []
  | c :: rest =>
    if c = '*' then '.' :: '*' :: replaceStar rest else c :: replaceStar rest

/-- The source's `strings.ReplaceAll(pattern, "?", ".")`. -/
def replaceQm : List Char → List Char
  | [] => []
  | c :: rest =>
    if c = '?' then '.' :: replaceQm rest else c :: replaceQm rest

/-- `MatchesPattern(profile, pattern)` from `internal/config`:
translate the wildcard to `^body$` and test the whole candidate. -/
def MatchesPattern (profile pattern : String) : Bool :=
  match parseRegexBody (replaceQm (replaceStar pattern.data)) with
  | none => false
  | some atoms => atomsMatch atoms profile.data

/-- Loop used by the spec-level wildcard semantics: a `*` consumes
zero or more characters, unconditionally. -/
def wildStarLoop (cont : List Char → Bool) : List Char → Bool
  | [] => cont []
  | d :: s' => cont (d :: s') || wildStarLoop cont s'

/-- Defined from the spec's words (§4.1), for comparison with
`MatchesPattern`: every `*` matches zero or more characters, every `?`
matches exactly one character, all other characters match only
themselves, and the whole pattern is anchored at both ends. -/
def specWildcardMatch : List Char → List Char → Bool
  | [], s => s.isEmpty
  | c :: p, s =>
    if c = '*' then wildStarLoop (specWildcardMatch p) s
    else
      match s with
      | [] => false
      | d :: s' => (if c = '?' then true else c == d) && specWildcardMatch p s'

/-! ## Correctness of the translation for metacharacter-free patterns -/

/-- Pattern characters for which the spec semantics and the emitted
regex agree character by character: the two wildcards plus literals
with no regex meta-meaning. -/
def wildcardOk (c : Char) : Bool :=
  c == '*' || c == '?' || isRegexLiteralChar c

/-- The atom sequence the translation emits for a wildcard pattern. -/
def atomsOfWildcard : List Char → List RAtom
  | [] => []
  | c :: p =>
    if c = '*' then RAtom.starDot :: atomsOfWildcard p
    else if c = '?' then RAtom.dot :: atomsOfWildcard p
    else RAtom.lit c :: atomsOfWildcard p

theorem regexLiteral_ne_star {c : Char} (h : isRegexLiteralChar c = true) : c ≠ '*' := by
  intro hc
  subst hc
  exact absurd h (by decide)

theorem regexLiteral_ne_qm {c : Char} (h : isRegexLiteralChar c = true) : c ≠ '?' := by
  intro hc
  subst hc
  exact absurd h (by decide)

theorem regexLiteral_ne_dot {c : Char} (h : isRegexLiteralChar c = true) : c ≠ '.' := by
  intro hc
  subst hc
  exact absurd h (by decide)

/-- Whether a character list does not begin with a literal `*`. -/
def headNotStar : List Char → Bool
  | [] => true
  | c :: _ => c != '*'

theorem headNotStar_translated (p : List Char) (h : p.all wildcardOk = true) :
    headNotStar (replaceQm (replaceStar p)) = true := by
  cases p with
  | nil => rfl
  | cons c p' =>
    simp only [List.all_cons, Bool.and_eq_true] at h
    by_cases hs : c = '*'
    · subst hs
      simp [replaceStar, replaceQm, headNotStar]
    · by_cases hq : c = '?'
      · subst hq
        simp [replaceStar, replaceQm, headNotStar]
      · have hlit : isRegexLiteralChar c = true := by
          have := h.1
          simp only [wildcardOk, Bool.or_eq_true, beq_iff_eq] at this
          rcases this with (h1 | h1) | h1
          · exact absurd h1 hs
          · exact absurd h1 hq
          · exact h1
        simp only [replaceStar, if_neg hs, replaceQm, if_neg hq, headNotStar]
        simp [regexLiteral_ne_star hlit]

theorem parse_translated (p : List Char) (h : p.all wildcardOk = true) :
    parseRegexBody (replaceQm (replaceStar p)) = some (atomsOfWildcard p) := by
  induction p with
  | nil => rfl
  | cons c p' ih =>
    simp only [List.all_cons, Bool.and_eq_true] at h
    obtain ⟨hc, hall⟩ := h
    have ihp := ih hall
    have hns := headNotStar_translated p' hall
    by_cases hs : c = '*'
    · subst hs
      simp only [replaceStar, if_pos rfl, replaceQm,
        if_neg (by decide : ¬('.' = '?')), if_neg (by decide : ¬('*' = '?')),
        atomsOfWildcard, if_pos rfl]
      simp [parseRegexBody, parseAtomChar, starify, ihp]
    · by_cases hq : c = '?'
      · subst hq
        simp only [replaceStar, if_neg (by decide : ¬('?' = '*')), replaceQm, if_pos rfl,
          atomsOfWildcard, if_neg (by decide : ¬('?' = '*')), if_pos rfl]
        cases htr : replaceQm (replaceStar p') with
        | nil =>
          rw [htr] at ihp
          have hatoms : atomsOfWildcard p' = [] := by
            simpa [parseRegexBody] using ihp
          simp [parseRegexBody, parseAtomChar, hatoms]
        | cons d rest =>
          rw [htr] at ihp
          rw [htr] at hns
          have hd : ¬(d = '*') := by
            simpa [headNotStar] using hns
          simp [parseRegexBody, parseAtomChar, if_neg hd, ihp]
      · have hlit : isRegexLiteralChar c = true := by
          simp only [wildcardOk, Bool.or_eq_true, beq_iff_eq] at hc
          rcases hc with (h1 | h1) | h1
          · exact absurd h1 hs
          · exact absurd h1 hq
          · exact h1
        simp only [replaceStar, if_neg hs, replaceQm, if_neg hq, atomsOfWildcard,
          if_neg hs, if_neg hq]
        cases htr : replaceQm (replaceStar p') with
        | nil =>
          rw [htr] at ihp
          have hatoms : atomsOfWildcard p' = [] := by
            simpa [parseRegexBody] using ihp
          simp [parseRegexBody, parseAtomChar, hatoms, if_neg hs,
            if_neg (regexLiteral_ne_dot hlit), hlit]
        | cons d rest =>
          rw [htr] at ihp
          rw [htr] at hns
          have hd : ¬(d = '*') := by
            simpa [headNotStar] using hns
          simp [parseRegexBody, parseAtomChar, if_neg hd, ihp, if_neg hs,
            if_neg (regexLiteral_ne_dot hlit), hlit]

theorem starLoop_eq_wildStarLoop (cont cont' : List Char → Bool) (s : List Char)
    (hs : s.all (fun c => c != '\n') = true)
    (h : ∀ t : List Char, t.all (fun c => c != '\n') = true → cont t = cont' t) :
    starLoop RAtom.starDot cont s = wildStarLoop cont' s := by
  induction s with
  | nil => simpa [starLoop, wildStarLoop] using h [] rfl
  | cons d s' ih =>
    simp only [List.all_cons, Bool.and_eq_true] at hs
    simp only [starLoop, wildStarLoop, atomMatchesChar, hs.1, Bool.true_and]
    rw [h (d :: s') (by simp [hs.1, hs.2]), ih hs.2]

theorem atoms_eq_spec (p : List Char) : ∀ s : List Char,
    p.all wildcardOk = true → s.all (fun c => c != '\n') = true →
    atomsMatch (atomsOfWildcard p) s = specWildcardMatch p s := by
  induction p with
  | nil =>
    intro s _ _
    cases s <;> simp [atomsOfWildcard, atomsMatch, specWildcardMatch]
  | cons c p' ih =>
    intro s hp hsall
    simp only [List.all_cons, Bool.and_eq_true] at hp
    obtain ⟨hc, hall⟩ := hp
    by_cases hs : c = '*'
    · subst hs
      simp only [atomsOfWildcard, if_pos rfl, atomsMatch, specWildcardMatch, if_pos rfl]
      exact starLoop_eq_wildStarLoop _ _ s hsall (fun t ht => ih t hall ht)
    · by_cases hq : c = '?'
      · subst hq
        simp only [atomsOfWildcard, if_neg (by decide : ¬('?' = '*')), if_pos rfl,
          specWildcardMatch, if_neg (by decide : ¬('?' = '*'))]
        cases s with
        | nil => simp [atomsMatch]
        | cons d s' =>
          simp only [List.all_cons, Bool.and_eq_true] at hsall
          simp [atomsMatch, hsall.1, ih s' hall hsall.2]
      · have hlit : isRegexLiteralChar c = true := by
          simp only [wildcardOk, Bool.or_eq_true, beq_iff_eq] at hc
          rcases hc with (h1 | h1) | h1
          · exact absurd h1 hs
          · exact absurd h1 hq
          · exact h1
        simp only [atomsOfWildcard, if_neg hs, if_neg hq, specWildcardMatch,
          if_neg hs, if_neg hq]
        cases s with
        | nil => simp [atomsMatch]
        | cons d s' =>
          simp only [List.all_cons, Bool.and_eq_true] at hsall
          simp [atomsMatch, ih s' hall hsall.2]

/-- Claim C2, counterexample: the matcher does not escape regex
metacharacters, so the pattern character `.` is not matched literally:
`A.B` matches the candidate `AXB`, while the spec's anchored wildcard
semantics (every non-wildcard character matches only itself) rejects it. -/
theorem c2_counterexample :
    MatchesPattern "AXB" "A.B" = true ∧
      specWildcardMatch "A.B".data "AXB".data = false :=
  ⟨by decide, by decide⟩

/-- Claim C2 (amended): for every wildcard pattern built from `*`, `?`
and characters with no regex meta-meaning (letters, digits, `_`, `-`),
and every newline-free candidate, the matcher decides exactly the
anchored wildcard semantics of the spec: `*` matches zero or more
characters, `?` exactly one, every other character only itself, and the
whole pattern must cover the whole candidate (no substring matching).
Other pattern characters are handed to the regex engine unescaped and
can match more than themselves. -/
theorem c2_anchored_wildcard_semantics (pattern candidate : String)
    (hp : pattern.data.all wildcardOk = true)
    (hc : candidate.data.all (fun c => c != '\n') = true) :
    MatchesPattern candidate pattern = specWildcardMatch pattern.data candidate.data := by
  unfold MatchesPattern
  rw [parse_translated pattern.data hp]
  exact atoms_eq_spec pattern.data candidate.data hp hc

/-- Witness for `c2_anchored_wildcard_semantics` at concrete inputs. -/
theorem c2_anchored_wildcard_semantics_witness :
    MatchesPattern "ACME_PROD_ADMIN" "*_PROD_*" =
      specWildcardMatch "*_PROD_*".data "ACME_PROD_ADMIN".data :=
  c2_anchored_wildcard_semantics "*_PROD_*" "ACME_PROD_ADMIN" (by decide) (by decide)

/-! ## Data model (`internal/config`)

`FancyConfig` aggregates one `ProfileConfig` per profile name plus
`GlobalSettings`; Go's `map[string]ProfileConfig` becomes an
association list with unique keys. -/

structure ProfileConfig where
  Name : String
  AccountID : String
  ECRLogin : Bool
  ECRRegion : String
  K8sContext : String
  K9sAutoLaunch : Bool
  NamespacePrefix : String
deriving Repr, DecidableEq

structure GlobalSettings where
  DefaultRegion : String
  ConfigWizardRun : Bool
  PreferLocalConfigs : Bool
deriving Repr, DecidableEq

structure FancyConfig where
  ProfileConfigs : List (String × ProfileConfig)
  Settings : GlobalSettings
deriving Repr, DecidableEq

/-- `DefaultFancyConfig()` from `internal/config`. -/
def DefaultFancyConfig : FancyConfig :=
  { ProfileConfigs := []
    Settings :=
      { DefaultRegion := "eu-central-1"
        ConfigWizardRun := false
        PreferLocalConfigs := true } }

/-- `GetProfileConfig`: map lookup; the source's
`(*ProfileConfig, error)` return becomes an `Option`. -/
def GetProfileConfig (fc : FancyConfig) (profile : String) : Option ProfileConfig :=
  lookupKey fc.ProfileConfigs profile

/-- `ShouldPerformECRLogin`: false for an unknown profile, otherwise
the profile's `ECRLogin` flag. -/
def ShouldPerformECRLogin (fc : FancyConfig) (profile : String) : Bool :=
  match GetProfileConfig fc profile with
  | none => false
  | some config => config.ECRLogin

/-- `ShouldAutoLaunchK9s`: false for an unknown profile, otherwise the
profile's `K9sAutoLaunch` flag. -/
def ShouldAutoLaunchK9s (fc : FancyConfig) (profile : String) : Bool :=
  match GetProfileConfig fc profile with
  | none => false
  | some config => config.K9sAutoLaunch

/-- `GetK8sContextForProfile`: empty string for an unknown profile,
otherwise the profile's `K8sContext`. -/
def GetK8sContextForProfile (fc : FancyConfig) (profile : String) : String :=
  match GetProfileConfig fc profile with
  | none => ""
  | some config => config.K8sContext

/-- `GetECRRegionForProfile`: the global default region for an unknown
profile or an empty per-profile region, otherwise the per-profile
region. -/
def GetECRRegionForProfile (fc : FancyConfig) (profile : String) : String :=
  match GetProfileConfig fc profile with
  | none => fc.Settings.DefaultRegion
  | some config =>
    if config.ECRRegion = "" then fc.Settings.DefaultRegion else config.ECRRegion

/-! ## NamespaceResolver (`internal/config`, `GetNamespaceFromProfile`)

The source matches the profile against the regex
`^([A-Z]+)_([A-Z]+)_DEVENG$` with `FindStringSubmatch`.  Because
`[A-Z]+` cannot contain `_`, a match forces the first group to be the
maximal underscore-free prefix and the second group the maximal
underscore-free run after the first `_`, with the literal `_DEVENG`
closing the string; `devengParse` computes exactly that. -/

/-- Character class `[A-Z]`. -/
def isUpperChar (c : Char) : Bool :=
  'A' ≤ c && c ≤ 'Z'

/-- A nonempty run of `[A-Z]` characters (one `[A-Z]+` group). -/
def isUpperRun (l : List Char) : Bool :=
  !l.isEmpty && l.all isUpperChar

/-- Submatch extraction for `^([A-Z]+)_([A-Z]+)_DEVENG$`. -/
def devengParse (profile : String) : Option (List Char × List Char) :=
  match profile.data.dropWhile (fun c => c != '_') with
  | '_' :: rest =>
    if isUpperRun (profile.data.takeWhile (fun c => c != '_')) &&
        isUpperRun (rest.takeWhile (fun c => c != '_')) &&
        (rest.dropWhile (fun c => c != '_') == "_DEVENG".data) then
      some (profile.data.takeWhile (fun c => c != '_'),
        rest.takeWhile (fun c => c != '_'))
    else none
  | _ => none

/-- ASCII lowering; `strings.ToLower` restricted to the `[A-Z]` runs
the DEVENG pattern guarantees here. -/
def asciiLower (c : Char) : Char :=
  if 'A' ≤ c && c ≤ 'Z' then Char.ofNat (c.toNat + 32) else c

/-- `GetNamespaceFromProfile(profile, namespaceMappings)`: on a DEVENG
match, look the project code up and build `lower(env) + "-" + project`;
the `(string, error)` return becomes `Except String String`. -/
def GetNamespaceFromProfile (profile : String)
    (namespaceMappings : List (String × String)) : Except String String :=
  match devengParse profile with
  | none => Except.error ("profile " ++ profile ++ " does not match DEVENG pattern")
  | some (code, env) =>
    match lookupKey namespaceMappings (String.mk code) with
    | none =>
      Except.error ("project code " ++ String.mk code ++ " not found in namespace config")
    | some projectName => Except.ok (String.mk (env.map asciiLower) ++ "-" ++ projectName)

theorem upper_ne_underscore {c : Char} (h : isUpperChar c = true) : (c != '_') = true := by
  rcases eq_or_ne c '_' with rfl | hne
  · exact absurd h (by decide)
  · simpa using hne

theorem upperRun_no_underscore {l : List Char} (h : isUpperRun l = true) :
    l.all (fun c => c != '_') = true := by
  simp only [isUpperRun, Bool.and_eq_true] at h
  rw [List.all_eq_true] at h ⊢
  exact fun c hc => upper_ne_underscore (h.2 c hc)

theorem takeWhile_append_end {p : Char → Bool} (l₁ : List Char) (c : Char) (l₂ : List Char)
    (h1 : l₁.all p = true) (hc : p c = false) :
    (l₁ ++ c :: l₂).takeWhile p = l₁ ∧ (l₁ ++ c :: l₂).dropWhile p = c :: l₂ := by
  induction l₁ with
  | nil => simp [List.takeWhile_cons, List.dropWhile_cons, hc]
  | cons a l₁' ih =>
    simp only [List.all_cons, Bool.and_eq_true] at h1
    have hih := ih h1.2
    simp [List.takeWhile_cons, List.dropWhile_cons, h1.1, hih.1, hih.2]

theorem devengParse_mk (code env : List Char)
    (hcode : isUpperRun code = true) (henv : isUpperRun env = true) :
    devengParse (String.mk (code ++ '_' :: (env ++ "_DEVENG".data))) = some (code, env) := by
  have h1 := takeWhile_append_end code '_' (env ++ "_DEVENG".data)
    (upperRun_no_underscore hcode) (by decide)
  have hsplit : env ++ "_DEVENG".data = env ++ '_' :: "DEVENG".data := rfl
  have h2 := takeWhile_append_end env '_' "DEVENG".data
    (upperRun_no_underscore henv) (by decide)
  unfold devengParse
  show (match (code ++ '_' :: (env ++ "_DEVENG".data)).dropWhile (fun c => c != '_') with
    | '_' :: rest =>
      if isUpperRun ((code ++ '_' :: (env ++ "_DEVENG".data)).takeWhile (fun c => c != '_')) &&
          isUpperRun (rest.takeWhile (fun c => c != '_')) &&
          (rest.dropWhile (fun c => c != '_') == "_DEVENG".data) then
        some ((code ++ '_' :: (env ++ "_DEVENG".data)).takeWhile (fun c => c != '_'),
          rest.takeWhile (fun c => c != '_'))
      else none
    | _ => none) = some (code, env)
  rw [h1.1, h1.2]
  show (if isUpperRun code &&
      isUpperRun ((env ++ "_DEVENG".data).takeWhile (fun c => c != '_')) &&
      ((env ++ "_DEVENG".data).dropWhile (fun c => c != '_') == "_DEVENG".data) then
    some (code, (env ++ "_DEVENG".data).takeWhile (fun c => c != '_'))
  else none) = some (code, env)
  rw [hsplit, h2.1, h2.2]
  simp [hcode, henv]

theorem devengParse_characterize (profile : String) (code env : List Char)
    (h : devengParse profile = some (code, env)) :
    profile.data = code ++ '_' :: (env ++ "_DEVENG".data) ∧
      isUpperRun code = true ∧ isUpperRun env = true := by
  unfold devengParse at h
  split at h
  next rest heq =>
    split at h
    next hcond =>
      simp only [Option.some_inj, Prod.mk.injEq] at h
      simp only [Bool.and_eq_true, beq_iff_eq] at hcond
      obtain ⟨⟨hc1, hc2⟩, hc3⟩ := hcond
      have hsplit1 : profile.data.takeWhile (fun c => c != '_') ++
          profile.data.dropWhile (fun c => c != '_') = profile.data :=
        List.takeWhile_append_dropWhile _ _
      have hsplit2 : rest.takeWhile (fun c => c != '_') ++
          rest.dropWhile (fun c => c != '_') = rest :=
        List.takeWhile_append_dropWhile _ _
      have hrest : rest = env ++ "_DEVENG".data := by
        rw [← hsplit2, h.2, hc3]
      refine ⟨?_, ?_, ?_⟩
      · rw [← hsplit1, heq, h.1, hrest]
      · rw [← h.1]; exact hc1
      · rw [← h.2]; exact hc2
    next => exact absurd h (by simp)
  next => exact absurd h (by simp)

/-- Claim C5: namespace derivation succeeds exactly on profiles of the
shape `CODE_ENV_DEVENG` (nonempty uppercase runs `CODE`, `ENV`, single
underscores, literal suffix `DEVENG`) whose `CODE` is in the
project-code table, yielding `lower(ENV) + "-" + projectName`; the
three concrete spec examples; and the function is total (it returns an
error value rather than throwing). -/
theorem c5_namespace_derivation :
    GetNamespaceFromProfile "OV_TEST_DEVENG" [("OV", "overviews")] = Except.ok "test-overviews"
    ∧ (GetNamespaceFromProfile "OV_TEST_DEVENG" []).isOk = false
    ∧ (∀ table : List (String × String), (GetNamespaceFromProfile "OV_TEST" table).isOk = false)
    ∧ (∀ (code env : List Char) (table : List (String × String)) (projectName : String),
        isUpperRun code = true → isUpperRun env = true →
        lookupKey table (String.mk code) = some projectName →
        GetNamespaceFromProfile (String.mk (code ++ '_' :: (env ++ "_DEVENG".data))) table
          = Except.ok (String.mk (env.map asciiLower) ++ "-" ++ projectName))
    ∧ (∀ (profile : String) (table : List (String × String)) (ns : String),
        GetNamespaceFromProfile profile table = Except.ok ns →
        ∃ (code env : List Char) (projectName : String),
          profile.data = code ++ '_' :: (env ++ "_DEVENG".data) ∧
          isUpperRun code = true ∧ isUpperRun env = true ∧
          lookupKey table (String.mk code) = some projectName ∧
          ns = String.mk (env.map asciiLower) ++ "-" ++ projectName) := by
  refine ⟨rfl, rfl, fun table => rfl, ?_, ?_⟩
  · intro code env table projectName hcode henv hlook
    unfold GetNamespaceFromProfile
    rw [devengParse_mk code env hcode henv]
    simp only [hlook]
  · intro profile table ns h
    unfold GetNamespaceFromProfile at h
    cases hdp : devengParse profile with
    | none => rw [hdp] at h; exact absurd h (by simp)
    | some ce =>
      obtain ⟨code, env⟩ := ce
      rw [hdp] at h
      cases hlk : lookupKey table (String.mk code) with
      | none => simp [hlk] at h
      | some projectName =>
        simp only [hlk, Except.ok.injEq] at h
        obtain ⟨hshape, hc, he⟩ := devengParse_characterize profile code env hdp
        exact ⟨code, env, projectName, hshape, hc, he, hlk, h.symm⟩

/-- Witness for the universally quantified parts of
`c5_namespace_derivation` at concrete inputs. -/
theorem c5_namespace_derivation_witness :
    (GetNamespaceFromProfile "MD_PROD" [("MD", "middleware")]).isOk = false
    ∧ GetNamespaceFromProfile (String.mk ("MD".data ++ '_' :: ("PROD".data ++ "_DEVENG".data)))
        [("MD", "middleware")]
        = Except.ok (String.mk ("PROD".data.map asciiLower) ++ "-" ++ "middleware") :=
  ⟨c5_namespace_derivation.2.2.1 [("MD", "middleware")],
    c5_namespace_derivation.2.2.2.1 "MD".data "PROD".data [("MD", "middleware")] "middleware"
      (by decide) (by decide) (by decide)⟩

/-! ## ResolutionEngine (`internal/k8s`, `SelectKubernetesContext`)

The decision structure of `SelectKubernetesContext` with effects
abstracted away: switching the kubectl context, logging and the
summary-string formatting do not feed back into which context is
chosen, and the final interactive fzf fallback (with its
current-context last resort) is collapsed into one `interactive`
outcome delegated to the operator. -/

structure ContextMapping where
  Pattern : String
  Context : String
deriving Repr, DecidableEq

/-- Outcome of context resolution for one profile. -/
inductive ContextResolution where
  | configured (context : String)
  | skipNotConfigured
  | legacy (context : String)
  | interactive
deriving Repr, DecidableEq

/-- `SelectKubernetesContext(awsProfile)` given the loaded store and
the loaded legacy mapping file. -/
def SelectKubernetesContext (fc : FancyConfig) (mappings : List ContextMapping)
    (awsProfile : String) : ContextResolution :=
  let configuredContext := GetK8sContextForProfile fc awsProfile
  if configuredContext ≠ "" then ContextResolution.configured configuredContext
  else if (GetProfileConfig fc awsProfile).isSome then ContextResolution.skipNotConfigured
  else
    match mappings.find? (fun m => MatchesPattern awsProfile m.Pattern) with
    | some m => ContextResolution.legacy m.Context
    | none => ContextResolution.interactive

/-- Claim C1: for a profile present in the store, resolution is decided
by its `ProfileConfig` alone — a non-empty `k8sContext` is returned
verbatim and the legacy mapping list is never consulted (the outcome is
invariant under changing it); an empty `k8sContext` yields the skip
state for every mapping list; and the skip state is never produced for
a profile absent from the store. -/
theorem c1_profile_config_decides (fc : FancyConfig) (p : String) (pc : ProfileConfig)
    (h : lookupKey fc.ProfileConfigs p = some pc) :
    (pc.K8sContext ≠ "" → ∀ ms ms' : List ContextMapping,
        SelectKubernetesContext fc ms p = ContextResolution.configured pc.K8sContext ∧
        SelectKubernetesContext fc ms p = SelectKubernetesContext fc ms' p)
    ∧ (pc.K8sContext = "" → ∀ ms : List ContextMapping,
        SelectKubernetesContext fc ms p = ContextResolution.skipNotConfigured)
    ∧ (∀ (fc' : FancyConfig) (ms : List ContextMapping) (p' : String),
        lookupKey fc'.ProfileConfigs p' = none →
        SelectKubernetesContext fc' ms p' ≠ ContextResolution.skipNotConfigured) := by
  have hctx : GetK8sContextForProfile fc p = pc.K8sContext := by
    simp [GetK8sContextForProfile, GetProfileConfig, h]
  refine ⟨?_, ?_, ?_⟩
  · intro hne ms ms'
    constructor <;> simp [SelectKubernetesContext, hctx, hne]
  · intro heq ms
    simp [SelectKubernetesContext, hctx, heq, GetProfileConfig, h]
  · intro fc' ms p' hnone
    have hctx' : GetK8sContextForProfile fc' p' = "" := by
      simp [GetK8sContextForProfile, GetProfileConfig, hnone]
    simp only [SelectKubernetesContext, hctx', ne_eq, not_true_eq_false, if_false,
      GetProfileConfig, hnone, Option.isSome_none, Bool.false_eq_true]
    cases hfind : ms.find? (fun m => MatchesPattern p' m.Pattern) <;> simp [hfind]

/-- A configured profile record used to instantiate theorems. -/
def sampleConfiguredPC : ProfileConfig :=
  { Name := "MD_PROD_DEVENG", AccountID := "", ECRLogin := true,
    ECRRegion := "", K8sContext := "prod-cluster", K9sAutoLaunch := true,
    NamespacePrefix := "" }

/-- A skip-state profile record (present, empty context). -/
def sampleSkipPC : ProfileConfig :=
  { Name := "OV_DEV_ADMIN", AccountID := "", ECRLogin := false,
    ECRRegion := "", K8sContext := "", K9sAutoLaunch := false,
    NamespacePrefix := "" }

/-- A store holding the two sample profiles. -/
def sampleStore : FancyConfig :=
  { ProfileConfigs :=
      [("MD_PROD_DEVENG", sampleConfiguredPC), ("OV_DEV_ADMIN", sampleSkipPC)]
    Settings := DefaultFancyConfig.Settings }

/-- Witness for `c1_profile_config_decides` at a concrete store holding
one configured profile and one skip-state profile. -/
theorem c1_profile_config_decides_witness :
    (SelectKubernetesContext sampleStore [{ Pattern := "*", Context := "other" }]
        "MD_PROD_DEVENG" = ContextResolution.configured "prod-cluster")
    ∧ (SelectKubernetesContext sampleStore [{ Pattern := "*", Context := "other" }]
        "OV_DEV_ADMIN" = ContextResolution.skipNotConfigured) :=
  ⟨((c1_profile_config_decides sampleStore "MD_PROD_DEVENG" sampleConfiguredPC
        (by decide)).1 (by decide) [{ Pattern := "*", Context := "other" }] []).1,
    (c1_profile_config_decides sampleStore "OV_DEV_ADMIN" sampleSkipPC
        (by decide)).2.1 (by decide) [{ Pattern := "*", Context := "other" }]⟩

theorem find?_append_of_left_false {α : Type} (p : α → Bool) (l₁ l₂ : List α)
    (h : ∀ x ∈ l₁, p x = false) :
    (l₁ ++ l₂).find? p = l₂.find? p := by
  induction l₁ with
  | nil => rfl
  | cons a l₁' ih =>
    rw [List.cons_append, List.find?_cons_of_neg, ih (fun x hx => h x (by simp [hx]))]
    simp [h a (by simp)]

/-- Claim C4: for a profile absent from the store, the first legacy
mapping (in list order) whose pattern matches the profile supplies the
context, and the outcome does not depend on how the non-matching rules
before the first match (or any rules after it) are arranged; when no
rule matches, resolution falls through to interactive selection. -/
theorem c4_legacy_first_match (fc : FancyConfig) (p : String)
    (h : lookupKey fc.ProfileConfigs p = none) :
    (∀ (pre post pre' post' : List ContextMapping) (m : ContextMapping),
        (∀ x ∈ pre, MatchesPattern p x.Pattern = false) →
        (∀ x ∈ pre', MatchesPattern p x.Pattern = false) →
        MatchesPattern p m.Pattern = true →
        SelectKubernetesContext fc (pre ++ m :: post) p = ContextResolution.legacy m.Context ∧
        SelectKubernetesContext fc (pre' ++ m :: post') p =
          SelectKubernetesContext fc (pre ++ m :: post) p)
    ∧ (∀ ms : List ContextMapping,
        (∀ x ∈ ms, MatchesPattern p x.Pattern = false) →
        SelectKubernetesContext fc ms p = ContextResolution.interactive) := by
  have hctx : GetK8sContextForProfile fc p = "" := by
    simp [GetK8sContextForProfile, GetProfileConfig, h]
  have hsel : ∀ ms : List ContextMapping,
      SelectKubernetesContext fc ms p =
        match ms.find? (fun m => MatchesPattern p m.Pattern) with
        | some m => ContextResolution.legacy m.Context
        | none => ContextResolution.interactive := by
    intro ms
    simp [SelectKubernetesContext, hctx, GetProfileConfig, h]
  have hfirst : ∀ (pre post : List ContextMapping) (m : ContextMapping),
      (∀ x ∈ pre, MatchesPattern p x.Pattern = false) →
      MatchesPattern p m.Pattern = true →
      SelectKubernetesContext fc (pre ++ m :: post) p = ContextResolution.legacy m.Context := by
    intro pre post m hpre hm
    rw [hsel, find?_append_of_left_false _ pre (m :: post) hpre]
    simp [List.find?_cons, hm]
  refine ⟨?_, ?_⟩
  · intro pre post pre' post' m hpre hpre' hm
    refine ⟨hfirst pre post m hpre hm, ?_⟩
    rw [hfirst pre post m hpre hm, hfirst pre' post' m hpre' hm]
  · intro ms hms
    rw [hsel]
    rw [List.find?_eq_none.mpr (fun x hx => by simp [hms x hx])]

/-- Witness for `c4_legacy_first_match`: a dead rule, two matching
rules (first wins), and reordering of the non-matching prefix. -/
theorem c4_legacy_first_match_witness :
    SelectKubernetesContext
        { ProfileConfigs := [], Settings := DefaultFancyConfig.Settings }
        [{ Pattern := "XX_*", Context := "dead" },
          { Pattern := "*_PROD_*", Context := "prod-cluster" },
          { Pattern := "*", Context := "catch-all" }]
        "ACME_PROD_ADMIN"
      = ContextResolution.legacy "prod-cluster" :=
  ((c4_legacy_first_match
      { ProfileConfigs := [], Settings := DefaultFancyConfig.Settings }
      "ACME_PROD_ADMIN" rfl).1
    [{ Pattern := "XX_*", Context := "dead" }]
    [{ Pattern := "*", Context := "catch-all" }]
    [] []
    { Pattern := "*_PROD_*", Context := "prod-cluster" }
    (by decide) (by decide) (by decide)).1

/-! ## Dashboard auto-launch (`internal/k8s`, `HandleK9sLaunch`)

`HandleK9sLaunch` returns immediately when `ShouldAutoLaunchK9s` is
false; otherwise it launches k9s directly under the `-k` flag, or after
a y/n prompt.  `launchK9sWithNamespace` derives the namespace first and
reports an error without launching when derivation fails.  The loaded
namespace-mapping file and the operator's prompt answer are explicit
parameters; the outcome records whether the k9s process was started and
in which namespace. -/

/-- Outcome of the k9s launch decision. -/
inductive K9sOutcome where
  | notLaunched
  | launched (ns : String)
  | namespaceError
deriving Repr, DecidableEq

/-- `launchK9sWithNamespace(awsProfile)`. -/
def LaunchK9sWithNamespace (namespaceMappings : List (String × String))
    (awsProfile : String) : K9sOutcome :=
  match GetNamespaceFromProfile awsProfile namespaceMappings with
  | Except.error _ => K9sOutcome.namespaceError
  | Except.ok ns => K9sOutcome.launched ns

/-- `HandleK9sLaunch(awsProfile)`; `useK9S` is the `-k` flag and
`promptAnswer` the operator's reply to the y/n prompt. -/
def HandleK9sLaunch (fc : FancyConfig) (useK9S : Bool) (promptAnswer : String)
    (namespaceMappings : List (String × String)) (awsProfile : String) : K9sOutcome :=
  if !ShouldAutoLaunchK9s fc awsProfile then K9sOutcome.notLaunched
  else if useK9S then LaunchK9sWithNamespace namespaceMappings awsProfile
  else if promptAnswer = "y" then LaunchK9sWithNamespace namespaceMappings awsProfile
  else K9sOutcome.notLaunched

/-- A skip-state profile whose auto-launch flag is nevertheless set. -/
def skipStateAutoLaunchPC : ProfileConfig :=
  { Name := "OV_TEST_DEVENG", AccountID := "", ECRLogin := false,
    ECRRegion := "", K8sContext := "", K9sAutoLaunch := true,
    NamespacePrefix := "" }

/-- A store holding only that profile. -/
def skipStateAutoLaunchStore : FancyConfig :=
  { ProfileConfigs := [("OV_TEST_DEVENG", skipStateAutoLaunchPC)]
    Settings := DefaultFancyConfig.Settings }

/-- Claim C3, counterexample: the launch gate checks only the
`k9sAutoLaunch` flag, not the context-resolution state.  For a profile
in the skip state (present in the store, empty `k8sContext`) with the
flag set, `HandleK9sLaunch` under the `-k` flag does launch k9s (in the
derived namespace), contradicting the claim that auto-launch never
fires in the skip state. -/
theorem c3_counterexample :
    lookupKey skipStateAutoLaunchStore.ProfileConfigs "OV_TEST_DEVENG"
        = some skipStateAutoLaunchPC
    ∧ skipStateAutoLaunchPC.K8sContext = ""
    ∧ skipStateAutoLaunchPC.K9sAutoLaunch = true
    ∧ SelectKubernetesContext skipStateAutoLaunchStore [] "OV_TEST_DEVENG"
        = ContextResolution.skipNotConfigured
    ∧ HandleK9sLaunch skipStateAutoLaunchStore true "" [("OV", "overviews")] "OV_TEST_DEVENG"
        = K9sOutcome.launched "test-overviews" :=
  ⟨rfl, rfl, rfl, rfl, rfl⟩

/-- Claim C3 (amended): the dashboard auto-launch decision is gated by
the profile's `k9sAutoLaunch` flag alone (false for unknown profiles),
not by the context-resolution state: with the flag false nothing is
launched; with the flag true and the `-k` flag the launch path runs —
even in the skip state — and only a failed namespace derivation stops
the launch; and the decision depends on the store only through the
flag. -/
theorem c3_launch_gated_by_flag_only (fc : FancyConfig) (useK9S : Bool) (ans : String)
    (nm : List (String × String)) (p : String) :
    (ShouldAutoLaunchK9s fc p = false →
      HandleK9sLaunch fc useK9S ans nm p = K9sOutcome.notLaunched)
    ∧ (ShouldAutoLaunchK9s fc p = true → useK9S = true →
      HandleK9sLaunch fc useK9S ans nm p = LaunchK9sWithNamespace nm p)
    ∧ (∀ fc' : FancyConfig, ShouldAutoLaunchK9s fc p = ShouldAutoLaunchK9s fc' p →
      HandleK9sLaunch fc useK9S ans nm p = HandleK9sLaunch fc' useK9S ans nm p) := by
  refine ⟨?_, ?_, ?_⟩
  · intro hoff
    simp [HandleK9sLaunch, hoff]
  · intro hon huse
    simp [HandleK9sLaunch, hon, huse]
  · intro fc' hagree
    unfold HandleK9sLaunch
    rw [hagree]

/-- Witness for `c3_launch_gated_by_flag_only` at concrete inputs. -/
theorem c3_launch_gated_by_flag_only_witness :
    HandleK9sLaunch DefaultFancyConfig true "" [] "OV_TEST_DEVENG" = K9sOutcome.notLaunched
    ∧ HandleK9sLaunch skipStateAutoLaunchStore true "" [] "OV_TEST_DEVENG"
        = LaunchK9sWithNamespace [] "OV_TEST_DEVENG" :=
  ⟨(c3_launch_gated_by_flag_only DefaultFancyConfig true "" [] "OV_TEST_DEVENG").1 rfl,
    (c3_launch_gated_by_flag_only skipStateAutoLaunchStore true "" [] "OV_TEST_DEVENG").2.1
      rfl rfl⟩

/-- Claim C6: ECR login is performed only when the profile's
`ProfileConfig` has `ecrLogin` true, and the effective region for a
stored profile is `ecrRegion` when non-empty, else the global
`defaultRegion`, degenerating to the empty string (not a crash) when
both are empty. -/
theorem c6_ecr_directive (fc : FancyConfig) (p : String) :
    (ShouldPerformECRLogin fc p = true ↔
      ∃ pc : ProfileConfig, lookupKey fc.ProfileConfigs p = some pc ∧ pc.ECRLogin = true)
    ∧ (∀ pc : ProfileConfig, lookupKey fc.ProfileConfigs p = some pc →
      GetECRRegionForProfile fc p =
        if pc.ECRRegion = "" then fc.Settings.DefaultRegion else pc.ECRRegion)
    ∧ (∀ pc : ProfileConfig, lookupKey fc.ProfileConfigs p = some pc →
      pc.ECRRegion = "" → fc.Settings.DefaultRegion = "" →
      GetECRRegionForProfile fc p = "") := by
  refine ⟨?_, ?_, ?_⟩
  · cases hlk : lookupKey fc.ProfileConfigs p <;>
      simp [ShouldPerformECRLogin, GetProfileConfig, hlk]
  · intro pc h
    simp [GetECRRegionForProfile, GetProfileConfig, h]
  · intro pc h h1 h2
    simp [GetECRRegionForProfile, GetProfileConfig, h, h1, h2]

/-- A stored profile with ECR login enabled and no per-profile region. -/
def ecrSamplePC : ProfileConfig :=
  { Name := "P", AccountID := "", ECRLogin := true, ECRRegion := "",
    K8sContext := "", K9sAutoLaunch := false, NamespacePrefix := "" }

/-- A store holding only `ecrSamplePC`. -/
def ecrSampleStore : FancyConfig :=
  { ProfileConfigs := [("P", ecrSamplePC)], Settings := DefaultFancyConfig.Settings }

/-- Witness for `c6_ecr_directive` at a concrete store. -/
theorem c6_ecr_directive_witness :
    GetECRRegionForProfile ecrSampleStore "P" =
      (if ecrSamplePC.ECRRegion = "" then ecrSampleStore.Settings.DefaultRegion
        else ecrSamplePC.ECRRegion)
    ∧ (ShouldPerformECRLogin ecrSampleStore "P" = true ↔
      ∃ pc : ProfileConfig, lookupKey ecrSampleStore.ProfileConfigs "P" = some pc ∧
        pc.ECRLogin = true) :=
  ⟨(c6_ecr_directive ecrSampleStore "P").2.1 ecrSamplePC rfl,
    (c6_ecr_directive ecrSampleStore "P").1⟩

/-- Claim C10: for a profile with no `ProfileConfig` in the store, the
ECR-region query returns the global `defaultRegion` (a well-defined
value, not an error), while the ECR-login and auto-launch queries
return false. -/
theorem c10_unconfigured_profile (fc : FancyConfig) (p : String)
    (h : lookupKey fc.ProfileConfigs p = none) :
    GetECRRegionForProfile fc p = fc.Settings.DefaultRegion
    ∧ ShouldPerformECRLogin fc p = false
    ∧ ShouldAutoLaunchK9s fc p = false := by
  refine ⟨?_, ?_, ?_⟩ <;>
    simp [GetECRRegionForProfile, ShouldPerformECRLogin, ShouldAutoLaunchK9s,
      GetProfileConfig, h]

/-- Witness for `c10_unconfigured_profile`: under the default store the
region query yields the (non-empty) default region. -/
theorem c10_unconfigured_profile_witness :
    GetECRRegionForProfile DefaultFancyConfig "UNKNOWN" = "eu-central-1"
    ∧ ShouldPerformECRLogin DefaultFancyConfig "UNKNOWN" = false
    ∧ ShouldAutoLaunchK9s DefaultFancyConfig "UNKNOWN" = false :=
  c10_unconfigured_profile DefaultFancyConfig "UNKNOWN" rfl

/-! ## ConfigStore (`internal/config`, `LoadFancyConfig` / `SaveFancyConfig`)

`SaveFancyConfig` marshals the whole document through `yaml.v3` and
overwrites the file; `LoadFancyConfig` returns the default document
when no file exists, propagates a parse error otherwise, and
normalizes a missing `profile_configs` key to an empty map.  The
byte-level YAML syntax is the library's concern; the embedding models
the document as a structured value (`Yaml`) and the library's
struct (un)marshalling for these fixed shapes: struct fields are
emitted in declaration order with their `yaml` tag names (`omitempty`
fields skipped when empty), map keys are emitted in sorted order,
missing keys decode to Go zero values, and a document or field of the
wrong shape is a decode error.  A file whose bytes do not parse at all
is represented by a document of the wrong shape. -/

/-- Structured YAML values (the fragment this document uses). -/
inductive Yaml where
  | str (s : String)
  | bool (b : Bool)
  | map (entries : List (String × Yaml))

/-- Decode a string-typed field; a missing key is the Go zero value. -/
def getStrField (entries : List (String × Yaml)) (key : String) : Except String String :=
  match lookupKey entries key with
  | none => Except.ok ""
  | some (Yaml.str s) => Except.ok s
  | some _ => Except.error ("field " ++ key ++ " is not a string")

/-- Decode a bool-typed field; a missing key is the Go zero value. -/
def getBoolField (entries : List (String × Yaml)) (key : String) : Except String Bool :=
  match lookupKey entries key with
  | none => Except.ok false
  | some (Yaml.bool b) => Except.ok b
  | some _ => Except.error ("field " ++ key ++ " is not a bool")

/-- Marshal `GlobalSettings` (struct fields in declaration order). -/
def marshalGlobalSettings (gs : GlobalSettings) : Yaml :=
  Yaml.map [("default_region", Yaml.str gs.DefaultRegion),
    ("config_wizard_run", Yaml.bool gs.ConfigWizardRun),
    ("prefer_local_configs", Yaml.bool gs.PreferLocalConfigs)]

/-- Unmarshal `GlobalSettings`. -/
def unmarshalGlobalSettings : Yaml → Except String GlobalSettings
  | Yaml.map entries =>
    match getStrField entries "default_region", getBoolField entries "config_wizard_run",
        getBoolField entries "prefer_local_configs" with
    | Except.ok dr, Except.ok cw, Except.ok pl =>
      Except.ok { DefaultRegion := dr, ConfigWizardRun := cw, PreferLocalConfigs := pl }
    | Except.error e, _, _ => Except.error e
    | _, Except.error e, _ => Except.error e
    | _, _, Except.error e => Except.error e
  | _ => Except.error "settings is not a mapping"

/-- Marshal one `ProfileConfig` (`account_id` and `namespace_prefix`
carry `omitempty`). -/
def marshalProfileConfig : ProfileConfig → Yaml
  | ⟨n, a, el, er, kc, k9, np⟩ =>
    Yaml.map ([("name", Yaml.str n)] ++
      (if a = "" then [] else [("account_id", Yaml.str a)]) ++
      [("ecr_login", Yaml.bool el), ("ecr_region", Yaml.str er),
        ("k8s_context", Yaml.str kc), ("k9s_auto_launch", Yaml.bool k9)] ++
      (if np = "" then [] else [("namespace_prefix", Yaml.str np)]))

/-- Unmarshal one `ProfileConfig`; any ill-typed field is an error. -/
def unmarshalProfileConfig : Yaml → Except String ProfileConfig
  | Yaml.map entries =>
    match getStrField entries "name", getStrField entries "account_id",
        getBoolField entries "ecr_login", getStrField entries "ecr_region",
        getStrField entries "k8s_context", getBoolField entries "k9s_auto_launch",
        getStrField entries "namespace_prefix" with
    | Except.ok n, Except.ok a, Except.ok el, Except.ok er, Except.ok kc,
        Except.ok k9, Except.ok np =>
      Except.ok
        { Name := n, AccountID := a, ECRLogin := el, ECRRegion := er,
          K8sContext := kc, K9sAutoLaunch := k9, NamespacePrefix := np }
    | _, _, _, _, _, _, _ => Except.error "malformed profile entry"
  | _ => Except.error "profile entry is not a mapping"

/-- Lexicographic comparison of character lists (string order). -/
def charListLe : List Char → List Char → Bool
  | [], _ => true
  | _ :: _, [] => false
  | c :: cs, d :: ds => if c < d then true else if d < c then false else charListLe cs ds

/-- Key order used when emitting map entries. -/
def keyLe (a b : String) : Bool :=
  charListLe a.data b.data

/-- Insert into a key-sorted association list. -/
def insertByKey {β : Type} (x : String × β) : List (String × β) → List (String × β)
  | [] => [x]
  | y :: rest => if keyLe x.1 y.1 = true then x :: y :: rest else y :: insertByKey x rest

/-- Sort an association list by key (the deterministic map-key order
the YAML marshaller emits). -/
def sortByKey {β : Type} : List (String × β) → List (String × β)
  | [] => []
  | x :: rest => insertByKey x (sortByKey rest)

/-- Marshal the `profile_configs` map. -/
def marshalProfileEntries (l : List (String × ProfileConfig)) : List (String × Yaml) :=
  (sortByKey l).map (fun kp => (kp.1, marshalProfileConfig kp.2))

/-- Marshal a whole `FancyConfig` document. -/
def marshalFancyConfig (fc : FancyConfig) : Yaml :=
  Yaml.map [("profile_configs", Yaml.map (marshalProfileEntries fc.ProfileConfigs)),
    ("settings", marshalGlobalSettings fc.Settings)]

/-- Unmarshal the `profile_configs` map entries. -/
def unmarshalProfileEntries : List (String × Yaml) →
    Except String (List (String × ProfileConfig))
  | [] => Except.ok []
  | (k, v) :: rest =>
    match unmarshalProfileConfig v, unmarshalProfileEntries rest with
    | Except.ok pc, Except.ok tail => Except.ok ((k, pc) :: tail)
    | Except.error e, _ => Except.error e
    | _, Except.error e => Except.error e

/-- Unmarshal a whole `FancyConfig` document; a missing
`profile_configs` key is the nil map which `LoadFancyConfig`
normalizes to empty, a missing `settings` key is the zero-valued
struct. -/
def unmarshalFancyConfig : Yaml → Except String FancyConfig
  | Yaml.map entries =>
    match (match lookupKey entries "profile_configs" with
        | none => Except.ok []
        | some (Yaml.map pentries) => unmarshalProfileEntries pentries
        | some _ => Except.error "profile_configs is not a mapping"),
        (match lookupKey entries "settings" with
        | none =>
          Except.ok
            { DefaultRegion := "", ConfigWizardRun := false,
              PreferLocalConfigs := false }
        | some s => unmarshalGlobalSettings s) with
    | Except.ok profiles, Except.ok settings =>
      Except.ok { ProfileConfigs := profiles, Settings := settings }
    | Except.error e, _ => Except.error e
    | _, Except.error e => Except.error e
  | _ => Except.error "document is not a mapping"

/-- `LoadFancyConfig()`: absence of the file (`none`) yields the
default document; an existing document is decoded, propagating decode
errors. -/
def LoadFancyConfig (file : Option Yaml) : Except String FancyConfig :=
  match file with
  | none => Except.ok DefaultFancyConfig
  | some doc => unmarshalFancyConfig doc

/-- `SaveFancyConfig()`: marshal the whole document (the file write
itself is an external effect). -/
def SaveFancyConfig (fc : FancyConfig) : Yaml :=
  marshalFancyConfig fc

theorem charListLe_total : ∀ a b : List Char, charListLe a b = true ∨ charListLe b a = true := by
  intro a
  induction a with
  | nil => intro b; left; rfl
  | cons c cs ih =>
    intro b
    cases b with
    | nil => right; rfl
    | cons d ds =>
      rcases lt_trichotomy c d with h | h | h
      · left; simp [charListLe, h]
      · subst h
        rcases ih ds with h' | h'
        · left; simp [charListLe, lt_irrefl, h']
        · right; simp [charListLe, lt_irrefl, h']
      · right; simp [charListLe, h]

theorem keyLe_total (a b : String) (h : keyLe a b = false) : keyLe b a = true := by
  rcases charListLe_total a.data b.data with h' | h'
  · exact absurd h' (by simp [keyLe] at h; simp [h])
  · exact h'

theorem chain'_insertByKey {β : Type} (x : String × β) (l : List (String × β))
    (h : List.Chain' (fun a b => keyLe a.1 b.1 = true) l) :
    List.Chain' (fun a b => keyLe a.1 b.1 = true) (insertByKey x l) := by
  induction l with
  | nil => simp [insertByKey]
  | cons y rest ih =>
    simp only [insertByKey]
    by_cases hxy : keyLe x.1 y.1 = true
    · rw [if_pos hxy, List.chain'_cons]
      exact ⟨hxy, h⟩
    · rw [if_neg hxy]
      rw [List.chain'_cons'] at h
      rw [List.chain'_cons']
      refine ⟨?_, ih h.2⟩
      intro z hz
      have hyx : keyLe y.1 x.1 = true :=
        keyLe_total x.1 y.1 (by simpa using hxy)
      cases rest with
      | nil =>
        simp only [insertByKey, List.head?_cons, Option.mem_def, Option.some.injEq] at hz
        rw [← hz]
        exact hyx
      | cons w rest' =>
        simp only [insertByKey] at hz
        by_cases hxw : keyLe x.1 w.1 = true
        · rw [if_pos hxw] at hz
          simp only [List.head?_cons, Option.mem_def, Option.some.injEq] at hz
          rw [← hz]
          exact hyx
        · rw [if_neg hxw] at hz
          simp only [List.head?_cons, Option.mem_def, Option.some.injEq] at hz
          rw [← hz]
          exact h.1 w (by simp)

theorem chain'_sortByKey {β : Type} (l : List (String × β)) :
    List.Chain' (fun a b => keyLe a.1 b.1 = true) (sortByKey l) := by
  induction l with
  | nil => simp [sortByKey]
  | cons x rest ih => exact chain'_insertByKey x (sortByKey rest) ih

theorem sortByKey_eq_self {β : Type} (l : List (String × β))
    (h : List.Chain' (fun a b => keyLe a.1 b.1 = true) l) : sortByKey l = l := by
  induction l with
  | nil => rfl
  | cons x rest ih =>
    rw [List.chain'_cons'] at h
    simp only [sortByKey, ih h.2]
    cases rest with
    | nil => rfl
    | cons y rest' => simp [insertByKey, h.1 y (by simp)]

theorem sortByKey_idem {β : Type} (l : List (String × β)) :
    sortByKey (sortByKey l) = sortByKey l :=
  sortByKey_eq_self _ (chain'_sortByKey l)

theorem unmarshal_marshal_gs (gs : GlobalSettings) :
    unmarshalGlobalSettings (marshalGlobalSettings gs) = Except.ok gs := by
  obtain ⟨dr, cw, pl⟩ := gs
  rfl

theorem unmarshal_marshal_pc (pc : ProfileConfig) :
    unmarshalProfileConfig (marshalProfileConfig pc) = Except.ok pc := by
  obtain ⟨n, a, el, er, kc, k9, np⟩ := pc
  by_cases ha : a = "" <;> by_cases hnp : np = "" <;>
    simp [marshalProfileConfig, unmarshalProfileConfig, getStrField, getBoolField,
      lookupKey, ha, hnp]

theorem unmarshal_marshal_entries (l : List (String × ProfileConfig)) :
    unmarshalProfileEntries (l.map (fun kp => (kp.1, marshalProfileConfig kp.2)))
      = Except.ok l := by
  induction l with
  | nil => rfl
  | cons kp rest ih =>
    obtain ⟨k, pc⟩ := kp
    simp [unmarshalProfileEntries, unmarshal_marshal_pc, ih]

theorem load_save (cfg : FancyConfig) :
    LoadFancyConfig (some (SaveFancyConfig cfg)) =
      Except.ok { ProfileConfigs := sortByKey cfg.ProfileConfigs, Settings := cfg.Settings } := by
  simp [LoadFancyConfig, SaveFancyConfig, marshalFancyConfig, unmarshalFancyConfig,
    lookupKey, marshalProfileEntries, unmarshal_marshal_entries, unmarshal_marshal_gs]

/-- Claim C7: config loading distinguishes absence from corruption —
with no file the default document is returned successfully, while an
existing document that fails to decode produces an error (never a
silent fallback to the defaults). -/
theorem c7_absent_vs_malformed :
    LoadFancyConfig none = Except.ok DefaultFancyConfig
    ∧ (∀ doc : Yaml, (unmarshalFancyConfig doc).isOk = false →
        (LoadFancyConfig (some doc)).isOk = false)
    ∧ (unmarshalFancyConfig (Yaml.str "corrupt")).isOk = false := by
  refine ⟨rfl, ?_, rfl⟩
  intro doc h
  simpa [LoadFancyConfig] using h

/-- Witness for `c7_absent_vs_malformed`: loading a malformed document
is an error. -/
theorem c7_absent_vs_malformed_witness :
    (LoadFancyConfig (some (Yaml.str "corrupt"))).isOk = false :=
  c7_absent_vs_malformed.2.1 (Yaml.str "corrupt") c7_absent_vs_malformed.2.2

/-- Claim C8: persistence is round-trip idempotent — for a well-formed
config (unique profile keys), saving, loading the saved document and
saving again yields the same saved document. -/
theorem c8_save_load_save (cfg : FancyConfig)
    (_hwf : (cfg.ProfileConfigs.map Prod.fst).Nodup) :
    (LoadFancyConfig (some (SaveFancyConfig cfg))).map SaveFancyConfig
      = Except.ok (SaveFancyConfig cfg) := by
  rw [load_save]
  simp only [Except.map]
  rw [SaveFancyConfig, SaveFancyConfig, marshalFancyConfig, marshalFancyConfig]
  simp [marshalProfileEntries, sortByKey_idem]

/-- Witness for `c8_save_load_save` at a concrete two-profile store. -/
theorem c8_save_load_save_witness :
    (LoadFancyConfig (some (SaveFancyConfig sampleStore))).map SaveFancyConfig
      = Except.ok (SaveFancyConfig sampleStore) :=
  c8_save_load_save sampleStore (by decide)

/-! ## ConfigWizard (`internal/config`, `configureProfiles`)

The wizard iterates the discovered AWS profiles — filtered, in
add-new-only mode, to the profiles absent from the store at entry —
and for each one reads the operator's answers (configure? / ECR
login? / ECR region / context choice / k9s auto-launch / namespace)
and writes the resulting `ProfileConfig` into the store under the
profile's name.  The terminal prompts become one `WizardAnswers`
record per configured profile; answers are ASCII as typed at a
terminal, so indexing byte 0 of the lowercased answer is indexing its
first character. -/

structure AWSProfile where
  Name : String
  AccountID : String
  Region : String
  SSOStartURL : String
  SSORegion : String
  SSORole : String
  IsSSO : Bool
deriving Repr, DecidableEq

structure KubernetesContext where
  Name : String
  Cluster : String
  Namespace : String
  User : String
deriving Repr, DecidableEq

/-- The operator's answers to the per-profile prompts of one wizard
iteration. -/
structure WizardAnswers where
  configureAnswer : String
  ecrInput : String
  regionInput : String
  contextChoice : String
  k9sInput : String
  namespaceInput : String
deriving Repr, DecidableEq

/-- Temporary per-profile record built by `getProfileConfiguration`. -/
structure ProfileConfiguration where
  Name : String
  ECRLogin : Bool
  ECRRegion : String
  K8sContext : String
  K9sAutoLaunch : Bool
  Namespace : String
deriving Repr, DecidableEq

/-- The source's `strings.ToLower(s)[0] == c` test (false on empty
input, where the source short-circuits first). -/
def firstLowerIs (s : String) (c : Char) : Bool :=
  match s.data with
  | [] => false
  | d :: _ => asciiLower d == c

/-- Accumulate decimal digits (`strconv.Atoi` digit loop). -/
def digitsVal : List Char → Nat → Option Nat
  | [], acc => some acc
  | c :: rest, acc =>
    if c.isDigit then digitsVal rest (acc * 10 + (c.toNat - 48)) else none

/-- `strconv.Atoi`: optional sign then decimal digits (the 64-bit
range check is out of scope for the single-digit menu choices used
here). -/
def atoi (s : String) : Option Int :=
  match s.data with
  | [] => none
  | '+' :: rest => if rest = [] then none else (digitsVal rest 0).map (fun n => (n : Int))
  | '-' :: rest => if rest = [] then none else (digitsVal rest 0).map (fun n => -(n : Int))
  | l => (digitsVal l 0).map (fun n => (n : Int))

/-- `getProfileConfiguration(profile)`: the prompt cascade with its
documented defaults (ECR yes on empty input; region defaulting to the
profile's region or `eu-central-1`; context `none` unless a valid menu
index is typed; k9s auto-launch asked only when a context was chosen,
default no). -/
def getProfileConfiguration (k8sContexts : List KubernetesContext)
    (profile : AWSProfile) (ans : WizardAnswers) : ProfileConfiguration :=
  let ecrLogin := (ans.ecrInput == "") || firstLowerIs ans.ecrInput 'y'
  let ecrRegion :=
    if ecrLogin then
      let defaultRegion := if profile.Region != "" then profile.Region else "eu-central-1"
      if ans.regionInput == "" then defaultRegion else ans.regionInput
    else ""
  let k8sContext :=
    if k8sContexts.length > 0 then
      if ans.contextChoice != "" && ans.contextChoice != "0" then
        match atoi ans.contextChoice with
        | some idx =>
          if idx > 0 && idx ≤ (k8sContexts.length : Int) then
            match k8sContexts.get? (idx - 1).toNat with
            | some ctx => ctx.Name
            | none => ""
          else ""
        | none => ""
      else ""
    else ""
  let k9sAutoLaunch := if k8sContext != "" then firstLowerIs ans.k9sInput 'y' else false
  let ns :=
    if k8sContext != "" && k9sAutoLaunch then
      if ans.namespaceInput != "" && ans.namespaceInput != "default" then ans.namespaceInput
      else ""
    else ""
  { Name := profile.Name, ECRLogin := ecrLogin, ECRRegion := ecrRegion,
    K8sContext := k8sContext, K9sAutoLaunch := k9sAutoLaunch, Namespace := ns }

/-- The `configure != "" && strings.ToLower(configure)[0] == 'n'` skip
test. -/
def answerSkipsProfile (s : String) : Bool :=
  (s != "") && firstLowerIs s 'n'

/-- The `ProfileConfig` literal stored by the wizard loop
(`NamespacePrefix` is left at its zero value). -/
def mkStoredProfileConfig (profile : AWSProfile) (pc : ProfileConfiguration) : ProfileConfig :=
  { Name := profile.Name, AccountID := profile.AccountID, ECRLogin := pc.ECRLogin,
    ECRRegion := pc.ECRRegion, K8sContext := pc.K8sContext,
    K9sAutoLaunch := pc.K9sAutoLaunch, NamespacePrefix := "" }

/-- One iteration of the `configureProfiles` loop. -/
def wizardStep (k8sContexts : List KubernetesContext)
    (st : List (String × ProfileConfig)) (pa : AWSProfile × WizardAnswers) :
    List (String × ProfileConfig) :=
  if answerSkipsProfile pa.2.configureAnswer then st
  else mapInsert st pa.1.Name
    (mkStoredProfileConfig pa.1 (getProfileConfiguration k8sContexts pa.1 pa.2))

/-- `configureProfiles()`: in add-new-only mode the candidate set is
filtered, against the store as it stands at entry, to the profiles
absent from it; each remaining profile is configured from the
operator's answer stream and written into the store. -/
def configureProfiles (addNewOnly : Bool) (store : List (String × ProfileConfig))
    (awsProfiles : List AWSProfile) (k8sContexts : List KubernetesContext)
    (answers : List WizardAnswers) : List (String × ProfileConfig) :=
  ((if addNewOnly then awsProfiles.filter (fun p => (lookupKey store p.Name).isNone)
    else awsProfiles).zip answers).foldl (wizardStep k8sContexts) store

theorem lookupKey_mapInsert_ne {β : Type} (l : List (String × β)) (k k' : String) (v : β)
    (h : k ≠ k') : lookupKey (mapInsert l k v) k' = lookupKey l k' := by
  induction l with
  | nil => simp [mapInsert, lookupKey, h]
  | cons y rest ih =>
    obtain ⟨ky, vy⟩ := y
    by_cases hk : ky = k
    · subst hk
      simp [mapInsert, lookupKey, h]
    · simp [mapInsert, lookupKey, hk, ih]

theorem foldl_wizardStep_preserves (k8sContexts : List KubernetesContext) :
    ∀ (l : List (AWSProfile × WizardAnswers)) (st : List (String × ProfileConfig))
      (name : String) (pc : ProfileConfig),
    (∀ pa ∈ l, pa.1.Name ≠ name) →
    lookupKey st name = some pc →
    lookupKey (l.foldl (wizardStep k8sContexts) st) name = some pc := by
  intro l
  induction l with
  | nil => intro st name pc _ h; exact h
  | cons pa l' ih =>
    intro st name pc hne h
    rw [List.foldl_cons]
    refine ih _ name pc (fun x hx => hne x (by simp [hx])) ?_
    unfold wizardStep
    by_cases hskip : answerSkipsProfile pa.2.configureAnswer = true
    · rw [if_pos hskip]; exact h
    · rw [if_neg hskip]
      rw [lookupKey_mapInsert_ne _ _ _ _ (hne pa (by simp))]
      exact h

/-- Claim C9: in add-new-only mode, every `ProfileConfig` already in
the store at entry is left completely unchanged by the wizard's
profile-configuration stage, whatever the discovered profiles,
contexts and operator answers are; only names absent from the store
can be written. -/
theorem c9_add_new_only_frame (store : List (String × ProfileConfig))
    (awsProfiles : List AWSProfile) (k8sContexts : List KubernetesContext)
    (answers : List WizardAnswers) (name : String) (pc : ProfileConfig)
    (h : lookupKey store name = some pc) :
    lookupKey (configureProfiles true store awsProfiles k8sContexts answers) name
      = some pc := by
  unfold configureProfiles
  rw [if_pos rfl]
  refine foldl_wizardStep_preserves k8sContexts _ store name pc ?_ h
  intro pa hpa
  obtain ⟨p, ans⟩ := pa
  have h1 : p ∈ awsProfiles.filter (fun q => (lookupKey store q.Name).isNone) :=
    (List.of_mem_zip hpa).1
  have h2 := List.of_mem_filter h1
  intro heq
  simp only at heq
  rw [heq, h] at h2
  simp at h2

/-- An existing store entry that the wizard must not touch. -/
def preexistingPC : ProfileConfig :=
  { Name := "OLD", AccountID := "111", ECRLogin := true, ECRRegion := "eu-west-1",
    K8sContext := "old-ctx", K9sAutoLaunch := true, NamespacePrefix := "" }

/-- Witness for `c9_add_new_only_frame`: one already-configured
profile and one new profile; the operator answers the new profile's
prompts (with answers that differ from the stored values), and the
stored entry is unchanged. -/
theorem c9_add_new_only_frame_witness :
    lookupKey
      (configureProfiles true [("OLD", preexistingPC)]
        [{ Name := "OLD", AccountID := "111", Region := "", SSOStartURL := "",
           SSORegion := "", SSORole := "", IsSSO := true },
         { Name := "NEW", AccountID := "222", Region := "", SSOStartURL := "",
           SSORegion := "", SSORole := "", IsSSO := false }]
        [{ Name := "ctx1", Cluster := "c", Namespace := "", User := "u" }]
        [{ configureAnswer := "", ecrInput := "n", regionInput := "",
           contextChoice := "1", k9sInput := "y", namespaceInput := "" }])
      "OLD" = some preexistingPC :=
  c9_add_new_only_frame _ _ _ _ "OLD" preexistingPC rfl
